import Mathlib

/-!
Verification model of the shipnoiseviz dashboard core
(`src/app.py` and `src/plotutils.py`).

The two source files contain:
* `find_files_by_date`      -- scans `output/{location}` for files of a date,
* `filter_timestamps_by_time_range` -- time-of-day filter over the index,
* `create_plotly_spectrogram` / `create_plotly_psd` / `create_plotly_bb`
                              -- visualization adapters,
* `create_sidebar_layout`   -- the interaction flow of the Generate button.

The filesystem, the wav decoder and the scipy spectrogram transform are
external collaborators; they enter the model as explicit arguments
(directory listings, an `Option`-valued decode result, and an abstract
spectrogram function), so every definition below is a pure, executable
translation of the corresponding Python code.
-/

/-! ## Python `datetime.time` values (time of day) -/

/-- A Python `datetime.time` value: hour, minute, second, microsecond.
Python compares `time` objects lexicographically on these fields, which for
in-range values coincides with comparison of microseconds since midnight. -/
structure PyTime where
  hour : Nat
  minute : Nat
  second : Nat
  micro : Nat
deriving DecidableEq, Repr

/-- Microseconds since midnight; Python's `time` ordering. -/
def PyTime.toMicros (t : PyTime) : Nat :=
  ((t.hour * 60 + t.minute) * 60 + t.second) * 1000000 + t.micro

/-! ## `datetime.strptime(ts, "%Y-%m-%dT%H-%M-%S-%f")`

`filter_timestamps_by_time_range` parses each timestamp key with the fixed
layout `%Y-%m-%dT%H-%M-%S-%f` (src/app.py line 96).  CPython's `_strptime`
matches `%Y` as exactly four digits, `%m` `%d` `%H` `%M` `%S` as one or two
digits, and `%f` as one to six digits (right-padded with zeros to
microseconds); every field here is terminated by a non-digit separator
(`-`, `T`, or end of string), so maximal-munch digit grabbing gives exactly
the regex semantics.  Out-of-range fields (month 13, Feb 30, hour 24, ...)
make `strptime` raise `ValueError`, modelled as `none`. -/

/-- The result of parsing a timestamp key: the fields of the
`datetime` object built by `strptime`. -/
structure StrpTime where
  year : Nat
  month : Nat
  day : Nat
  hour : Nat
  minute : Nat
  second : Nat
  micro : Nat
deriving DecidableEq, Repr

/-- `datetime.time()`: the time-of-day component of a parsed timestamp. -/
def StrpTime.toTime (t : StrpTime) : PyTime :=
  ⟨t.hour, t.minute, t.second, t.micro⟩

/-- Grab at most `max` leading decimal digits, accumulating their value;
returns (value, how many digits were consumed, remaining characters). -/
def grabDigits : Nat → Nat → List Char → Nat × Nat × List Char
  | 0, acc, cs => (acc, 0, cs)
  | _ + 1, acc, [] => (acc, 0, [])
  | max + 1, acc, c :: cs =>
    if c.isDigit then
      let r := grabDigits max (acc * 10 + (c.toNat - 48)) cs
      (r.1, r.2.1 + 1, r.2.2)
    else (acc, 0, c :: cs)

/-- Parse a numeric field of at most `maxw` digits; at least one digit is
required (as in each `_strptime` field regex). -/
def parseField (maxw : Nat) (s : List Char) : Option (Nat × Nat × List Char) :=
  match grabDigits maxw 0 s with
  | (v, n, rest) => if n = 0 then none else some (v, n, rest)

/-- Consume one expected literal separator character. -/
def expectChar (c : Char) : List Char → Option (List Char)
  | [] => none
  | c' :: cs => if c' = c then some cs else none

/-- Gregorian leap year, as used by `datetime`. -/
def isLeap (y : Nat) : Bool :=
  (y % 4 = 0 && y % 100 ≠ 0) || y % 400 = 0

/-- Number of days of a month, as validated by the `datetime` constructor. -/
def daysInMonth (y m : Nat) : Nat :=
  if m = 2 then (if isLeap y then 29 else 28)
  else if m = 4 || m = 6 || m = 9 || m = 11 then 30
  else 31

/-- The range checks performed by `strptime` / the `datetime` constructor;
a parse whose fields fail them raises `ValueError`. -/
def validDT (t : StrpTime) : Bool :=
  1 ≤ t.year && t.year ≤ 9999 &&
  1 ≤ t.month && t.month ≤ 12 &&
  1 ≤ t.day && t.day ≤ daysInMonth t.year t.month &&
  t.hour ≤ 23 && t.minute ≤ 59 && t.second ≤ 59 && t.micro ≤ 999999

/-- `datetime.strptime(s, "%Y-%m-%dT%H-%M-%S-%f")`, returning `none` where
Python raises `ValueError` (bad shape, leftover characters, or
out-of-range field values). -/
def parseTimestamp (s : List Char) : Option StrpTime :=
  match parseField 4 s with
  | none => none
  | some (y, yn, s1) =>
    if yn ≠ 4 then none else
    match expectChar '-' s1 with
    | none => none
    | some s2 =>
      match parseField 2 s2 with
      | none => none
      | some (mo, _, s3) =>
        match expectChar '-' s3 with
        | none => none
        | some s4 =>
          match parseField 2 s4 with
          | none => none
          | some (d, _, s5) =>
            match expectChar 'T' s5 with
            | none => none
            | some s6 =>
              match parseField 2 s6 with
              | none => none
              | some (h, _, s7) =>
                match expectChar '-' s7 with
                | none => none
                | some s8 =>
                  match parseField 2 s8 with
                  | none => none
                  | some (mi, _, s9) =>
                    match expectChar '-' s9 with
                    | none => none
                    | some s10 =>
                      match parseField 2 s10 with
                      | none => none
                      | some (sec, _, s11) =>
                        match expectChar '-' s11 with
                        | none => none
                        | some s12 =>
                          match parseField 6 s12 with
                          | none => none
                          | some (f, fn, s13) =>
                            if s13 ≠ [] then none else
                            let t : StrpTime :=
                              ⟨y, mo, d, h, mi, sec, f * 10 ^ (6 - fn)⟩
                            if validDT t then some t else none

/-- `n` printed as exactly `w` decimal digits, most significant first
(zero padded), as `strftime` prints each field of the fixed layout. -/
def padDigits : Nat → Nat → List Char
  | 0, _ => []
  | w + 1, n => Char.ofNat (48 + n / 10 ^ w) :: padDigits w (n % 10 ^ w)

/-- `datetime.strftime("%Y-%m-%dT%H-%M-%S-%f")`: the fixed, sortable
timestamp-key layout (4-digit year, 2-digit fields, 6-digit fraction). -/
def formatTimestamp (t : StrpTime) : List Char :=
  padDigits 4 t.year ++ '-' ::
    (padDigits 2 t.month ++ '-' ::
      (padDigits 2 t.day ++ 'T' ::
        (padDigits 2 t.hour ++ '-' ::
          (padDigits 2 t.minute ++ '-' ::
            (padDigits 2 t.second ++ '-' :: padDigits 6 t.micro)))))

/-- A valid Timestamp Key: a string produced by formatting some valid
date-time with the fixed layout. -/
def ValidKey (k : String) : Prop :=
  ∃ t : StrpTime, validDT t = true ∧ formatTimestamp t = k.data

/-! ## The File Index and `filter_timestamps_by_time_range` -/

/-- The inner dict of the File Index: file-kind tag (the dict key used by
`find_files_by_date`: an extension like `".wav"` or a pkl type `"bb"` /
`"psd"`) to file path.  Python dicts preserve insertion order, so both
dict levels are modelled as ordered association lists with unique keys. -/
abbrev FileEntry := List (String × String)

/-- The File Index: timestamp key to inner file mapping. -/
abbrev FileIndex := List (String × FileEntry)

/-- The loop body of `filter_timestamps_by_time_range` for one timestamp
key: parse it (a `ValueError` means the entry is skipped via `continue`),
then apply the same-day / overnight inclusion test with Python `time`
comparisons. -/
def keepTimestamp (start_time end_time : PyTime) (timestamp : String) : Bool :=
  match parseTimestamp timestamp.data with
  | none => false
  | some timestamp_dt =>
    let file_time := timestamp_dt.toTime
    if start_time.toMicros ≤ end_time.toMicros then
      decide (start_time.toMicros ≤ file_time.toMicros) &&
        decide (file_time.toMicros ≤ end_time.toMicros)
    else
      decide (start_time.toMicros ≤ file_time.toMicros) ||
        decide (file_time.toMicros ≤ end_time.toMicros)

/-- `filter_timestamps_by_time_range` (src/app.py lines 78-113): keeps, in
order, exactly the entries whose key parses and whose time of day passes
the range test; each kept key maps to its original inner dict. -/
def filter_timestamps_by_time_range (available_files : FileIndex)
    (start_time end_time : PyTime) : FileIndex :=
  available_files.filter (fun kv => keepTimestamp start_time end_time kv.1)

/-- Modelled from the spec's inclusion rule (section 4.2): same-day range
when start is at or before end, inclusive on both ends; overnight range
otherwise, as a disjunction, inclusive on both ends. -/
def specInRange (s e t : PyTime) : Prop :=
  if s.toMicros ≤ e.toMicros then
    s.toMicros ≤ t.toMicros ∧ t.toMicros ≤ e.toMicros
  else
    s.toMicros ≤ t.toMicros ∨ t.toMicros ≤ e.toMicros

/-! ## `find_files_by_date`

The filesystem enters the model as explicit data: the listing of
`output/{location}` (or `none` when that root does not exist), where each
entry carries its `is_dir` flag and the (optional) listings of its `wav`,
`pkl/bb` and `pkl/psd` subdirectories, in filesystem enumeration order. -/

/-- One entry of `Path(f"output/{location}").iterdir()`. -/
structure DirEntry where
  name : String
  is_dir : Bool
  wav : Option (List String)
  pkl_bb : Option (List String)
  pkl_psd : Option (List String)
deriving DecidableEq, Repr

/-- `glob(f"{pre}*{suf}")` on a filename: the name starts with `pre`, ends
with `suf`, and the two parts do not overlap. -/
def matchesPattern (pre suf name : List Char) : Bool :=
  decide (pre.length + suf.length ≤ name.length) &&
  decide (name.take pre.length = pre) &&
  decide (name.drop (name.length - suf.length) = suf)

/-- `pathlib.PurePath.stem`: the filename with its suffix removed, where
the suffix starts at the last dot that is neither leading nor trailing. -/
def stem (name : List Char) : List Char :=
  match (List.range name.length).filter (fun i => name.getD i ' ' = '.') |>.getLast? with
  | some i => if 0 < i ∧ i < name.length - 1 then name.take i else name
  | none => name

/-- `matching_files[timestamp][kind] = path` on the inner dict: overwrite
in place if the kind is present, else append. -/
def innerSet (kind path : String) : FileEntry → FileEntry
  | [] => [(kind, path)]
  | (k, v) :: rest =>
    if k = kind then (k, path) :: rest else (k, v) :: innerSet kind path rest

/-- The two-line idiom
`if timestamp not in matching_files: matching_files[timestamp] = {}` and
`matching_files[timestamp][kind] = path`. -/
def indexAdd (timestamp kind path : String) : FileIndex → FileIndex
  | [] => [(timestamp, innerSet kind path [])]
  | (t, entry) :: rest =>
    if t = timestamp then (t, innerSet kind path entry) :: rest
    else (t, entry) :: indexAdd timestamp kind path rest

/-- The `wav` branch of `find_files_by_date`: for each extension in
`file_extensions`, glob `{date_str}T*{ext}` in the `wav` subdirectory and
record each match under the key `ext`. -/
def processWavDir (location subdirName date_str : String)
    (file_extensions : List String) (files : List String)
    (acc : FileIndex) : FileIndex :=
  file_extensions.foldl (fun acc ext =>
    (files.filter (fun f =>
        matchesPattern (date_str ++ "T").data ext.data f.data)).foldl
      (fun acc f =>
        indexAdd (String.mk (stem f.data)) ext
          ("output/" ++ location ++ "/" ++ subdirName ++ "/wav/" ++ f) acc)
      acc)
    acc

/-- One `pkl` branch of `find_files_by_date`: glob `{date_str}T*.pickle`
in `pkl/bb` or `pkl/psd` (when present) and record each match under the
key `pkl_type` (`"bb"` or `"psd"`). -/
def processPklDir (location subdirName date_str pkl_subdir pkl_type : String)
    (listing : Option (List String)) (acc : FileIndex) : FileIndex :=
  match listing with
  | none => acc
  | some files =>
    (files.filter (fun f =>
        matchesPattern (date_str ++ "T").data ".pickle".data f.data)).foldl
      (fun acc f =>
        indexAdd (String.mk (stem f.data)) pkl_type
          ("output/" ++ location ++ "/" ++ subdirName ++ "/" ++ pkl_subdir ++ "/" ++ f) acc)
      acc

/-- `find_files_by_date` (src/app.py lines 21-76), over the modelled
filesystem: `root` is the listing of `output/{location}` (`none` when it
does not exist) and `date_str` is the date already formatted `YYYY-MM-DD`. -/
def find_files_by_date (location : String) (root : Option (List DirEntry))
    (date_str : String)
    (file_extensions : List String := [".wav", ".pickle"]) : FileIndex :=
  match root with
  | none => []
  | some entries =>
    entries.foldl (fun acc subdir =>
      if subdir.is_dir then
        let acc1 := match subdir.wav with
          | none => acc
          | some files =>
            processWavDir location subdir.name date_str file_extensions files acc
        let acc2 := processPklDir location subdir.name date_str "pkl/bb" "bb"
          subdir.pkl_bb acc1
        processPklDir location subdir.name date_str "pkl/psd" "psd"
          subdir.pkl_psd acc2
      else acc)
      []

/-- A directory entry contributes no file to the index: it is not a
directory, or each of its three subdirectory listings (when present) has
no file matching its glob pattern for `date_str`. -/
def dirHasNoMatch (date_str : String) (file_extensions : List String)
    (d : DirEntry) : Bool :=
  !d.is_dir ||
    ((match d.wav with
      | none => true
      | some files => files.all (fun f => file_extensions.all (fun ext =>
          !matchesPattern (date_str ++ "T").data ext.data f.data))) &&
     (match d.pkl_bb with
      | none => true
      | some files => files.all (fun f =>
          !matchesPattern (date_str ++ "T").data ".pickle".data f.data)) &&
     (match d.pkl_psd with
      | none => true
      | some files => files.all (fun f =>
          !matchesPattern (date_str ++ "T").data ".pickle".data f.data)))

/-! ## `create_plotly_spectrogram`

The wav decoder and `scipy.signal.spectrogram` are external: the decode
result is an argument (`none` models an exception inside `wavfile.read`),
and the composite spectrogram-and-dB-scale computation is an abstract
function `spectro samplerate samples nfft noverlap`.  numpy arrays are
rectangular, so a 2-D array is a row list plus its fixed column count. -/

/-- The decoded sample array, by number of dimensions.  `wavfile.read`
itself only produces 1-D or 2-D data; the other shapes exist to express
how the code would behave on them. -/
inductive WavData where
  | zeroD (x : Int)
  | oneD (xs : List Int)
  | twoD (rows : List (List Int)) (ncols : Nat)
  | threeD (xs : List (List (List Int)))
deriving DecidableEq, Repr

/-- `data[:, c]` on a 2-D array: one column as a channel's samples. -/
def column (c : Nat) (rows : List (List Int)) : List Int :=
  rows.map (fun r => r.getD c 0)

/-- One heatmap trace: its z-matrix (the abstract spectrogram value) and
its `showscale` flag. -/
structure Panel (α : Type) where
  z : α
  showscale : Bool
deriving DecidableEq, Repr

/-- The figure returned by `create_plotly_spectrogram`: a single heatmap
for 1-D data, or two vertically stacked per-channel heatmaps for 2-D
data, with the axis titles set by `update_layout` / `update_xaxes` /
`update_yaxes`. -/
inductive SpecFig (α : Type) where
  | mono (p : Panel α) (xTitle yTitle : String)
  | stereo (p0 p1 : Panel α) (xTitle yTitle0 yTitle1 : String)
deriving DecidableEq, Repr

/-- How `create_plotly_spectrogram` can terminate abnormally. -/
inductive SpecErr where
  | loadError    : SpecErr  -- the descriptive ValueError for a failed decode
  | indexError   : SpecErr  -- numpy index 1 out of bounds on axis 1
  | unboundLocal : SpecErr  -- `return fig` with `fig` never assigned
deriving DecidableEq, Repr

/-- The default-overlap line of `create_plotly_spectrogram`
(src/plotutils.py lines 26-27): `nfft // 2 if nfft <= 128 else 128`.
Python floor division by the positive constant 2 coincides with `Int`
division (`Int.ediv`). -/
def resolve_noverlap (nfft : Int) (noverlap : Option Int) : Int :=
  match noverlap with
  | some v => v
  | none => if nfft ≤ 128 then nfft / 2 else 128

/-- `create_plotly_spectrogram` (src/plotutils.py lines 10-110).
`wavRead` is the outcome of `wavfile.read` (`none` = decode exception,
re-raised as the descriptive load `ValueError`); `spectro` abstracts
`signal.spectrogram` composed with the dB conversion. -/
def create_plotly_spectrogram {α : Type} (spectro : Nat → List Int → Int → Int → α)
    (wavRead : Option (Nat × WavData)) (nfft : Int := 256)
    (noverlap : Option Int := none) : Except SpecErr (SpecFig α) :=
  let nov := resolve_noverlap nfft noverlap
  match wavRead with
  | none => .error .loadError
  | some (samplerate, data) =>
    match data with
    | .oneD xs =>
      .ok (.mono ⟨spectro samplerate xs nfft nov, true⟩
        "Time (s)" "Frequency (Hz)")
    | .twoD rows ncols =>
      if 2 ≤ ncols then
        .ok (.stereo
          ⟨spectro samplerate (column 0 rows) nfft nov, true⟩
          ⟨spectro samplerate (column 1 rows) nfft nov, false⟩
          "Time (s)" "Frequency (Hz)" "Frequency (Hz)")
      else .error .indexError
    | .zeroD _ => .error .unboundLocal
    | .threeD _ => .error .unboundLocal

/-! ## The Generate-Graphs interaction (`create_sidebar_layout`)

Lines 215-292 of src/app.py: given the inner dict of the selected
timestamp, render the raw-audio spectrogram, the PSD heatmap and the
broadband chart, with the error/warning policy of the code.  The I/O
outcomes are explicit booleans: whether the wav path exists on disk,
whether building the wav spectrogram succeeds, and whether each pickle
loads and renders. -/

/-- The user-visible events emitted by the Generate interaction, in
order. -/
inductive UiEvent where
  | errorNoWav : UiEvent            -- st.error("No WAV file found ...") then return
  | errorWavPathMissing : UiEvent   -- st.error("WAV file not found: ...") then return
  | showSpectrogram : UiEvent       -- st.plotly_chart of the wav spectrogram
  | showPsd : UiEvent               -- st.plotly_chart of the PSD heatmap
  | warnPsdLoadFailed : UiEvent     -- st.warning("Could not load PSD data ...")
  | warnNoPsd : UiEvent             -- st.warning("No processed PSD data ...")
  | showBroadband : UiEvent         -- st.plotly_chart of the broadband chart
  | warnBroadbandLoadFailed : UiEvent -- st.warning("Could not load broadband RMS ...")
  | warnNoBroadband : UiEvent       -- st.warning("No broadband RMS data ...")
  | errorProcessing : UiEvent       -- outer except: st.error("Error processing data ...")
  | statusSuccess : UiEvent         -- "All graphs generated successfully!"
deriving DecidableEq, Repr

/-- `kind in file_info` / `file_info[kind]` on the inner dict. -/
def lookupKind (file_info : FileEntry) (kind : String) : Option String :=
  (file_info.find? (fun p => p.1 = kind)).map Prod.snd

/-- The Generate-Graphs block of `create_sidebar_layout` (src/app.py
lines 215-292) for the selected timestamp's `file_info`:
no `.wav` key is fatal (error, then `return`); a missing wav path on disk
is fatal; an exception while building the wav spectrogram reaches the
outer `except` handler; PSD and broadband are then each rendered if
present, a load failure producing only a warning for that artifact. -/
def generate_graphs (file_info : FileEntry)
    (wavPathExists spectroOk psdOk bbOk : Bool) : List UiEvent :=
  let has_wav := (lookupKind file_info ".wav").isSome
  let has_psd := (lookupKind file_info "psd").isSome
  let has_bb := (lookupKind file_info "bb").isSome
  if has_wav = false then [.errorNoWav]
  else if wavPathExists = false then [.errorWavPathMissing]
  else if spectroOk = false then [.errorProcessing]
  else
    [.showSpectrogram] ++
    (if has_psd then
        (if psdOk then [.showPsd] else [.warnPsdLoadFailed])
      else [.warnNoPsd]) ++
    (if has_bb then
        (if bbOk then [.showBroadband] else [.warnBroadbandLoadFailed])
      else [.warnNoBroadband]) ++
    [.statusSuccess]

/-! # Theorems -/

/-! ## The time-range filter (claims C1, C5, C7) -/

theorem keepTimestamp_eq_true_iff (s e : PyTime) (k : String) :
    keepTimestamp s e k = true ↔
      ∃ d, parseTimestamp k.data = some d ∧ specInRange s e d.toTime := by
  unfold keepTimestamp specInRange
  cases hp : parseTimestamp k.data with
  | none => simp
  | some d => by_cases hse : s.toMicros ≤ e.toMicros <;> simp [hse]

/-- Claim C1: for every file index and start/end pair, the filter keeps a
key-value pair exactly when the pair is in the input and the key parses to
a date-time whose time of day satisfies the spec's range rule (inclusive
same-day range when start is at or before end, inclusive overnight
disjunction otherwise); kept keys map to their original inner mapping. -/
theorem filter_mem_iff_spec (idx : FileIndex) (s e : PyTime) (k : String)
    (v : FileEntry) :
    (k, v) ∈ filter_timestamps_by_time_range idx s e ↔
      ((k, v) ∈ idx ∧
        ∃ d, parseTimestamp k.data = some d ∧ specInRange s e d.toTime) := by
  simp only [filter_timestamps_by_time_range, List.mem_filter]
  exact and_congr_right (fun _ => keepTimestamp_eq_true_iff s e k)

/-- Claim C5: every entry of the filter's output has a parseable key (an
unparseable key is silently absent — no error value exists, the function
is total), and first discarding the unparseable entries from the input
changes nothing: all other entries are processed normally. -/
theorem filter_drops_unparseable (idx : FileIndex) (s e : PyTime) :
    (filter_timestamps_by_time_range idx s e).all
        (fun kv => (parseTimestamp kv.1.data).isSome) = true ∧
    filter_timestamps_by_time_range
        (idx.filter (fun kv => (parseTimestamp kv.1.data).isSome)) s e =
      filter_timestamps_by_time_range idx s e := by
  constructor
  · simp only [List.all_eq_true, filter_timestamps_by_time_range]
    intro kv hkv
    have h := (List.mem_filter.mp hkv).2
    unfold keepTimestamp at h
    cases hp : parseTimestamp kv.1.data with
    | none => rw [hp] at h; simp at h
    | some d => simp [hp]
  · unfold filter_timestamps_by_time_range
    rw [List.filter_filter]
    congr 1
    funext kv
    unfold keepTimestamp
    cases hp : parseTimestamp kv.1.data <;> simp

/-- Claim C7: filtering is idempotent — filtering an already-filtered
index with the same start/end pair returns it unchanged. -/
theorem filter_idempotent (idx : FileIndex) (s e : PyTime) :
    filter_timestamps_by_time_range
        (filter_timestamps_by_time_range idx s e) s e =
      filter_timestamps_by_time_range idx s e := by
  unfold filter_timestamps_by_time_range
  rw [List.filter_filter]
  simp

/-! ## Round-trip of the timestamp-key encoding (claim C8) -/

theorem digitChar_spec (d : Nat) (hd : d < 10) :
    (Char.ofNat (48 + d)).isDigit = true ∧ (Char.ofNat (48 + d)).toNat = 48 + d := by
  interval_cases d <;> exact ⟨by decide, by decide⟩

theorem headD_cons_not_digit (c : Char) (cs : List Char) (h : c.isDigit = false) :
    ((c :: cs).headD '-').isDigit = false := h

theorem grabDigits_padDigits (w : Nat) : ∀ (maxw acc n : Nat) (rest : List Char),
    w ≤ maxw → n < 10 ^ w → (rest.headD '-').isDigit = false →
    grabDigits maxw acc (padDigits w n ++ rest) = (acc * 10 ^ w + n, w, rest) := by
  induction w with
  | zero =>
    intro maxw acc n rest _ hn hrest
    interval_cases n
    cases maxw with
    | zero => simp [padDigits, grabDigits]
    | succ m =>
      cases rest with
      | nil => simp [padDigits, grabDigits]
      | cons c cs =>
        have hc : c.isDigit = false := hrest
        simp [padDigits, grabDigits, hc]
  | succ w ih =>
    intro maxw acc n rest hw hn hrest
    cases maxw with
    | zero => omega
    | succ m =>
      have h10 : (10 : Nat) ^ (w + 1) = 10 ^ w * 10 := pow_succ 10 w
      have hppos : 0 < (10 : Nat) ^ w := Nat.pow_pos (by norm_num)
      have hd : n / 10 ^ w < 10 :=
        (Nat.div_lt_iff_lt_mul hppos).mpr (by omega)
      obtain ⟨hdig, htoN⟩ := digitChar_spec _ hd
      have hrec := ih m (acc * 10 + n / 10 ^ w) (n % 10 ^ w) rest (by omega)
        (Nat.mod_lt _ hppos) hrest
      simp only [padDigits, List.cons_append, List.append_eq, grabDigits, hdig,
        if_true, htoN, Nat.add_sub_cancel_left, hrec, Prod.mk.injEq, and_true]
      have hdm := Nat.div_add_mod n (10 ^ w)
      calc (acc * 10 + n / 10 ^ w) * 10 ^ w + n % 10 ^ w
          = acc * (10 ^ w * 10) + (10 ^ w * (n / 10 ^ w) + n % 10 ^ w) := by ring
        _ = acc * 10 ^ (w + 1) + n := by rw [hdm, h10]

theorem parseField_padDigits (w maxw n : Nat) (rest : List Char)
    (hw : 1 ≤ w) (hmax : w ≤ maxw) (hn : n < 10 ^ w)
    (hrest : (rest.headD '-').isDigit = false) :
    parseField maxw (padDigits w n ++ rest) = some (n, w, rest) := by
  unfold parseField
  rw [grabDigits_padDigits w maxw 0 n rest hmax hn hrest]
  have hw0 : w ≠ 0 := by omega
  simp [hw0]

theorem expectChar_cons_self (c : Char) (rest : List Char) :
    expectChar c (c :: rest) = some rest := by
  simp [expectChar]

theorem daysInMonth_le_31 (y m : Nat) : daysInMonth y m ≤ 31 := by
  unfold daysInMonth
  split
  · split <;> omega
  · split <;> omega

theorem parseTimestamp_formatTimestamp (t : StrpTime) (ht : validDT t = true) :
    parseTimestamp (formatTimestamp t) = some t := by
  have hb : 1 ≤ t.year ∧ t.year ≤ 9999 ∧ 1 ≤ t.month ∧ t.month ≤ 12 ∧
      1 ≤ t.day ∧ t.day ≤ daysInMonth t.year t.month ∧
      t.hour ≤ 23 ∧ t.minute ≤ 59 ∧ t.second ≤ 59 ∧ t.micro ≤ 999999 := by
    simpa [validDT, Bool.and_eq_true, decide_eq_true_eq, and_assoc] using ht
  obtain ⟨hy1, hy2, hm1, hm2, hd1, hd2, hh, hmi, hs, hus⟩ := hb
  have hdml := daysInMonth_le_31 t.year t.month
  have p4 : (10 : Nat) ^ 4 = 10000 := by norm_num
  have p2 : (10 : Nat) ^ 2 = 100 := by norm_num
  have p6 : (10 : Nat) ^ 6 = 1000000 := by norm_num
  have e1 : parseField 4 (formatTimestamp t) =
      some (t.year, 4, '-' ::
        (padDigits 2 t.month ++ '-' ::
          (padDigits 2 t.day ++ 'T' ::
            (padDigits 2 t.hour ++ '-' ::
              (padDigits 2 t.minute ++ '-' ::
                (padDigits 2 t.second ++ '-' :: padDigits 6 t.micro)))))) := by
    show parseField 4 (padDigits 4 t.year ++ '-' ::
        (padDigits 2 t.month ++ '-' ::
          (padDigits 2 t.day ++ 'T' ::
            (padDigits 2 t.hour ++ '-' ::
              (padDigits 2 t.minute ++ '-' ::
                (padDigits 2 t.second ++ '-' :: padDigits 6 t.micro)))))) = _
    exact parseField_padDigits 4 4 t.year _ (by omega) (by omega) (by omega)
      (headD_cons_not_digit '-' _ (by decide))
  have e2 : parseField 2 (padDigits 2 t.month ++ '-' ::
      (padDigits 2 t.day ++ 'T' ::
        (padDigits 2 t.hour ++ '-' ::
          (padDigits 2 t.minute ++ '-' ::
            (padDigits 2 t.second ++ '-' :: padDigits 6 t.micro))))) =
      some (t.month, 2, '-' ::
        (padDigits 2 t.day ++ 'T' ::
          (padDigits 2 t.hour ++ '-' ::
            (padDigits 2 t.minute ++ '-' ::
              (padDigits 2 t.second ++ '-' :: padDigits 6 t.micro))))) :=
    parseField_padDigits 2 2 t.month _ (by omega) (by omega) (by omega)
      (headD_cons_not_digit '-' _ (by decide))
  have e3 : parseField 2 (padDigits 2 t.day ++ 'T' ::
      (padDigits 2 t.hour ++ '-' ::
        (padDigits 2 t.minute ++ '-' ::
          (padDigits 2 t.second ++ '-' :: padDigits 6 t.micro)))) =
      some (t.day, 2, 'T' ::
        (padDigits 2 t.hour ++ '-' ::
          (padDigits 2 t.minute ++ '-' ::
            (padDigits 2 t.second ++ '-' :: padDigits 6 t.micro)))) :=
    parseField_padDigits 2 2 t.day _ (by omega) (by omega) (by omega)
      (headD_cons_not_digit 'T' _ (by decide))
  have e4 : parseField 2 (padDigits 2 t.hour ++ '-' ::
      (padDigits 2 t.minute ++ '-' ::
        (padDigits 2 t.second ++ '-' :: padDigits 6 t.micro))) =
      some (t.hour, 2, '-' ::
        (padDigits 2 t.minute ++ '-' ::
          (padDigits 2 t.second ++ '-' :: padDigits 6 t.micro))) :=
    parseField_padDigits 2 2 t.hour _ (by omega) (by omega) (by omega)
      (headD_cons_not_digit '-' _ (by decide))
  have e5 : parseField 2 (padDigits 2 t.minute ++ '-' ::
      (padDigits 2 t.second ++ '-' :: padDigits 6 t.micro)) =
      some (t.minute, 2, '-' ::
        (padDigits 2 t.second ++ '-' :: padDigits 6 t.micro)) :=
    parseField_padDigits 2 2 t.minute _ (by omega) (by omega) (by omega)
      (headD_cons_not_digit '-' _ (by decide))
  have e6 : parseField 2 (padDigits 2 t.second ++ '-' :: padDigits 6 t.micro) =
      some (t.second, 2, '-' :: padDigits 6 t.micro) :=
    parseField_padDigits 2 2 t.second _ (by omega) (by omega) (by omega)
      (headD_cons_not_digit '-' _ (by decide))
  have e7 : parseField 6 (padDigits 6 t.micro ++ []) =
      some (t.micro, 6, []) :=
    parseField_padDigits 6 6 t.micro [] (by omega) (by omega) (by omega)
      (by decide)
  rw [List.append_nil] at e7
  have heta : (⟨t.year, t.month, t.day, t.hour, t.minute, t.second,
      t.micro * 10 ^ (6 - 6)⟩ : StrpTime) = t := by
    have : t.micro * 10 ^ (6 - 6) = t.micro := by norm_num
    rw [this]
  unfold parseTimestamp
  simp only [e1, e2, e3, e4, e5, e6, e7, expectChar_cons_self]
  simp [heta, ht]

/-- Claim C8: the Timestamp Key encoding round-trips — for every valid
Timestamp Key (a string in the image of the fixed layout over valid
date-times), parsing with the layout and re-formatting the parsed
date-time with the same layout yields the key again. -/
theorem timestamp_key_roundtrip (k : String) (h : ValidKey k) :
    (parseTimestamp k.data).map (fun t => formatTimestamp t) = some k.data := by
  obtain ⟨t, ht, hk⟩ := h
  rw [← hk, parseTimestamp_formatTimestamp t ht]
  rfl

theorem timestamp_key_roundtrip_witness :
    (parseTimestamp "2025-09-01T12-34-56-789000".data).map
        (fun t => formatTimestamp t) =
      some "2025-09-01T12-34-56-789000".data :=
  timestamp_key_roundtrip "2025-09-01T12-34-56-789000"
    ⟨⟨2025, 9, 1, 12, 34, 56, 789000⟩, by decide, by decide⟩

/-! ## The file indexer (claims C4, C6) -/

theorem foldl_preserve_mem {β γ : Type} {P : β → Prop} {step : β → γ → β} :
    ∀ (l : List γ), (∀ b a, a ∈ l → P b → P (step b a)) →
      ∀ b, P b → P (l.foldl step b) := by
  intro l
  induction l with
  | nil => intro _ b hb; exact hb
  | cons a l ih =>
    intro h b hb
    exact ih (fun b' a' ha' => h b' a' (List.mem_cons_of_mem _ ha')) _
      (h b a (List.mem_cons_self _ _) hb)

theorem foldl_congr_id {β γ : Type} {step : β → γ → β} :
    ∀ (l : List γ) (b : β), (∀ b' a, a ∈ l → step b' a = b') →
      l.foldl step b = b := by
  intro l
  induction l with
  | nil => intro b _; rfl
  | cons a l ih =>
    intro b h
    rw [List.foldl_cons, h b a (List.mem_cons_self _ _)]
    exact ih b (fun b' a' ha' => h b' a' (List.mem_cons_of_mem _ ha'))

theorem innerSet_key_mem (kind path : String) :
    ∀ (e : FileEntry), ∀ p ∈ innerSet kind path e, p.1 = kind ∨ p ∈ e := by
  intro e
  induction e with
  | nil =>
    intro p hp
    simp only [innerSet, List.mem_singleton] at hp
    left; rw [hp]
  | cons kv rest ih =>
    intro p hp
    obtain ⟨k, v⟩ := kv
    by_cases hk : k = kind
    · simp only [innerSet, if_pos hk] at hp
      rcases List.mem_cons.mp hp with h | h
      · left; rw [h]; exact hk
      · right; exact List.mem_cons_of_mem _ h
    · simp only [innerSet, if_neg hk] at hp
      rcases List.mem_cons.mp hp with h | h
      · right; rw [h]; exact List.mem_cons_self _ _
      · rcases ih p h with h1 | h1
        · left; exact h1
        · right; exact List.mem_cons_of_mem _ h1

theorem indexAdd_kinds {S : String → Prop} (ts kind path : String)
    (hkind : S kind) :
    ∀ (m : FileIndex), (∀ kv ∈ m, ∀ p ∈ kv.2, S p.1) →
      ∀ kv ∈ indexAdd ts kind path m, ∀ p ∈ kv.2, S p.1 := by
  intro m
  induction m with
  | nil =>
    intro _ kv hkv p hp
    simp only [indexAdd, List.mem_singleton] at hkv
    rw [hkv] at hp
    rcases innerSet_key_mem kind path [] p hp with h | h
    · rw [h]; exact hkind
    · simp at h
  | cons te rest ih =>
    intro hm kv hkv p hp
    obtain ⟨t0, e0⟩ := te
    simp only [indexAdd] at hkv
    split at hkv
    · rcases List.mem_cons.mp hkv with h | h
      · rw [h] at hp
        rcases innerSet_key_mem kind path e0 p hp with h1 | h1
        · rw [h1]; exact hkind
        · exact hm (t0, e0) (List.mem_cons_self _ _) p h1
      · exact hm kv (List.mem_cons_of_mem _ h) p hp
    · rcases List.mem_cons.mp hkv with h | h
      · rw [h] at hp; exact hm (t0, e0) (List.mem_cons_self _ _) p hp
      · exact ih (fun kv2 h2 => hm kv2 (List.mem_cons_of_mem _ h2)) kv h p hp

theorem processWavDir_kinds {S : String → Prop}
    (location subdirName date_str : String) (exts files : List String)
    (hexts : ∀ ext ∈ exts, S ext) :
    ∀ (acc : FileIndex), (∀ kv ∈ acc, ∀ p ∈ kv.2, S p.1) →
      ∀ kv ∈ processWavDir location subdirName date_str exts files acc,
        ∀ p ∈ kv.2, S p.1 := by
  intro acc hacc
  unfold processWavDir
  refine foldl_preserve_mem (P := fun m => ∀ kv ∈ m, ∀ p ∈ kv.2, S p.1)
    exts ?_ acc hacc
  intro b ext hext hb
  refine foldl_preserve_mem (P := fun m => ∀ kv ∈ m, ∀ p ∈ kv.2, S p.1)
    _ ?_ b hb
  intro b2 f _ hb2
  exact indexAdd_kinds _ ext _ (hexts ext hext) b2 hb2

theorem processPklDir_kinds {S : String → Prop}
    (location subdirName date_str pkl_subdir pkl_type : String)
    (listing : Option (List String)) (htype : S pkl_type) :
    ∀ (acc : FileIndex), (∀ kv ∈ acc, ∀ p ∈ kv.2, S p.1) →
      ∀ kv ∈ processPklDir location subdirName date_str pkl_subdir pkl_type
          listing acc,
        ∀ p ∈ kv.2, S p.1 := by
  intro acc hacc
  cases listing with
  | none => exact hacc
  | some files =>
    unfold processPklDir
    refine foldl_preserve_mem (P := fun m => ∀ kv ∈ m, ∀ p ∈ kv.2, S p.1)
      _ ?_ acc hacc
    intro b f _ hb
    exact indexAdd_kinds _ pkl_type _ htype b hb

/-- Claim C4 as stated is false: globbing the `wav` subdirectory for both
default extensions lets a `.pickle` file found under `wav` enter the index
under the kind `".pickle"`, which is none of raw-audio (`".wav"`), `"bb"`,
`"psd"`; in particular the wav subdirectory contributes a file that does
not end in the raw-audio extension, indexed under another kind. -/
theorem find_files_extra_kind_cex :
    ¬ (∀ kv ∈ find_files_by_date "loc"
          (some [⟨"s1", true, some ["2025-09-01Tx.pickle"], none, none⟩])
          "2025-09-01",
        ∀ p ∈ kv.2, p.1 = ".wav" ∨ p.1 = "bb" ∨ p.1 = "psd") := by
  decide

/-- Claim C4 (amended): with the default extension list, every inner key
of every entry of `find_files_by_date` is one of `".wav"`, `".pickle"`,
`"bb"`, `"psd"`; a file found under the `wav` subdirectory is indexed
under the extension it matched (`".wav"` or `".pickle"`), so the `wav`
subdirectory can contribute the `".pickle"` kind as well as raw audio. -/
theorem find_files_inner_kinds (location : String)
    (root : Option (List DirEntry)) (date_str : String) :
    ∀ kv ∈ find_files_by_date location root date_str, ∀ p ∈ kv.2,
      p.1 = ".wav" ∨ p.1 = ".pickle" ∨ p.1 = "bb" ∨ p.1 = "psd" := by
  cases root with
  | none => intro kv hkv; simp [find_files_by_date] at hkv
  | some entries =>
    unfold find_files_by_date
    refine foldl_preserve_mem
      (P := fun (m : FileIndex) => ∀ kv ∈ m, ∀ p ∈ kv.2,
        p.1 = ".wav" ∨ p.1 = ".pickle" ∨ p.1 = "bb" ∨ p.1 = "psd")
      entries ?_ [] (by simp)
    intro acc subdir _ hacc
    by_cases hdir : subdir.is_dir
    · simp only [hdir, if_true]
      have h1 : ∀ kv ∈ (match subdir.wav with
          | none => acc
          | some files => processWavDir location subdir.name date_str
              [".wav", ".pickle"] files acc),
          ∀ p ∈ kv.2,
            p.1 = ".wav" ∨ p.1 = ".pickle" ∨ p.1 = "bb" ∨ p.1 = "psd" := by
        cases hw : subdir.wav with
        | none => exact hacc
        | some files =>
          refine processWavDir_kinds
            (S := fun k => k = ".wav" ∨ k = ".pickle" ∨ k = "bb" ∨ k = "psd")
            location subdir.name date_str _ files ?_ acc hacc
          intro ext hext
          rcases List.mem_cons.mp hext with h | h
          · left; exact h
          · right; left; simpa using h
      have h2 := processPklDir_kinds
        (S := fun k => k = ".wav" ∨ k = ".pickle" ∨ k = "bb" ∨ k = "psd")
        location subdir.name date_str "pkl/bb"
        "bb" subdir.pkl_bb (by right; right; left; rfl) _ h1
      exact processPklDir_kinds
        (S := fun k => k = ".wav" ∨ k = ".pickle" ∨ k = "bb" ∨ k = "psd")
        location subdir.name date_str "pkl/psd"
        "psd" subdir.pkl_psd (by right; right; right; rfl) _ h2
    · simp only [hdir, if_false]
      exact hacc

theorem find_files_inner_kinds_witness :
    (".wav", "output/loc/s1/wav/2025-09-01Tx.wav").1 = ".wav" ∨
      (".wav", "output/loc/s1/wav/2025-09-01Tx.wav").1 = ".pickle" ∨
      (".wav", "output/loc/s1/wav/2025-09-01Tx.wav").1 = "bb" ∨
      (".wav", "output/loc/s1/wav/2025-09-01Tx.wav").1 = "psd" :=
  find_files_inner_kinds "loc"
    (some [⟨"s1", true, some ["2025-09-01Tx.wav"], none, none⟩]) "2025-09-01"
    ("2025-09-01Tx", [(".wav", "output/loc/s1/wav/2025-09-01Tx.wav")])
    (by decide)
    (".wav", "output/loc/s1/wav/2025-09-01Tx.wav") (by decide)

theorem processWavDir_no_match (location subdirName date_str : String)
    (exts files : List String)
    (h : ∀ f ∈ files, ∀ ext ∈ exts,
      matchesPattern (date_str ++ "T").data ext.data f.data = false) :
    ∀ acc, processWavDir location subdirName date_str exts files acc = acc := by
  intro acc
  unfold processWavDir
  refine foldl_congr_id exts acc ?_
  intro b ext hext
  have hnil : files.filter (fun f =>
      matchesPattern (date_str ++ "T").data ext.data f.data) = [] := by
    rw [List.filter_eq_nil_iff]
    intro f hf
    rw [h f hf ext hext]
    simp
  rw [hnil]
  rfl

theorem processPklDir_no_match
    (location subdirName date_str pkl_subdir pkl_type : String)
    (listing : Option (List String))
    (h : ∀ files, listing = some files → ∀ f ∈ files,
      matchesPattern (date_str ++ "T").data ".pickle".data f.data = false) :
    ∀ acc, processPklDir location subdirName date_str pkl_subdir pkl_type
      listing acc = acc := by
  intro acc
  unfold processPklDir
  cases hl : listing with
  | none => rfl
  | some files =>
    have hnil : files.filter (fun f =>
        matchesPattern (date_str ++ "T").data ".pickle".data f.data) = [] := by
      rw [List.filter_eq_nil_iff]
      intro f hf
      rw [h files hl f hf]
      simp
    simp only [hnil, List.foldl_nil]

/-- Claim C6: if the location root does not exist, or no subdirectory
contains a file matching its date-prefixed glob pattern, the index is the
empty mapping; `find_files_by_date` is a total function, so no error is
ever raised. -/
theorem find_files_empty_when_no_match (location date_str : String)
    (root : Option (List DirEntry)) :
    (root = none → find_files_by_date location root date_str = []) ∧
    (∀ entries, root = some entries →
      entries.all (dirHasNoMatch date_str [".wav", ".pickle"]) = true →
      find_files_by_date location root date_str = []) := by
  constructor
  · intro h; rw [h]; rfl
  · intro entries hroot hall
    rw [hroot]
    unfold find_files_by_date
    refine foldl_congr_id entries [] ?_
    intro acc subdir hsub
    have hnm := List.all_eq_true.mp hall subdir hsub
    unfold dirHasNoMatch at hnm
    by_cases hdir : subdir.is_dir
    · simp only [hdir, Bool.not_true, Bool.false_or, Bool.and_eq_true] at hnm
      obtain ⟨⟨hwav, hbb⟩, hpsd⟩ := hnm
      simp only [hdir, if_true]
      have h1 : (match subdir.wav with
          | none => acc
          | some files => processWavDir location subdir.name date_str
              [".wav", ".pickle"] files acc) = acc := by
        cases hw : subdir.wav with
        | none => rfl
        | some files =>
          refine processWavDir_no_match location subdir.name date_str _ files
            ?_ acc
          intro f hf ext hext
          rw [hw] at hwav
          have := List.all_eq_true.mp hwav f hf
          have h2 := List.all_eq_true.mp this ext hext
          simpa using h2
      rw [h1]
      have h2 : processPklDir location subdir.name date_str "pkl/bb" "bb"
          subdir.pkl_bb acc = acc := by
        refine processPklDir_no_match location subdir.name date_str _ _
          subdir.pkl_bb ?_ acc
        intro files hl f hf
        rw [hl] at hbb
        simpa using List.all_eq_true.mp hbb f hf
      rw [h2]
      refine processPklDir_no_match location subdir.name date_str _ _
        subdir.pkl_psd ?_ acc
      intro files hl f hf
      rw [hl] at hpsd
      simpa using List.all_eq_true.mp hpsd f hf
    · simp [hdir]

theorem find_files_empty_when_no_match_witness :
    find_files_by_date "loc"
      (some [⟨"s1", true, some ["notes.txt"], none, none⟩]) "2025-09-01" = [] :=
  (find_files_empty_when_no_match "loc" "2025-09-01"
      (some [⟨"s1", true, some ["notes.txt"], none, none⟩])).2
    [⟨"s1", true, some ["notes.txt"], none, none⟩] rfl (by decide)

/-! ## The spectrogram adapter (claims C3, C9, C10) -/

theorem resolve_noverlap_eq_min (nfft : Int) (h : nfft ≤ 128 ∨ 256 ≤ nfft) :
    resolve_noverlap nfft none = min (nfft / 2) 128 := by
  show (if nfft ≤ 128 then nfft / 2 else 128) = min (nfft / 2) 128
  rcases h with h | h
  · rw [if_pos h]
    exact (min_eq_left (by omega)).symm
  · rw [if_neg (by omega)]
    exact (min_eq_right (by omega)).symm

/-- Claim C3 as stated is false at window size 130: with `noverlap` not
supplied, the overlap the code hands to the spectrogram call is 128, while
min(130 // 2, 128) = 65 (the code caps at 128 only once nfft exceeds 128,
it does not take a pointwise minimum). -/
theorem default_noverlap_not_min_cex :
    create_plotly_spectrogram (fun _ _ _ nov => nov)
        (some (48000, WavData.oneD [0])) 130 none =
      Except.ok (SpecFig.mono ⟨128, true⟩ "Time (s)" "Frequency (Hz)") ∧
    min ((130 : Int) / 2) 128 = 65 := by
  exact ⟨rfl, by decide⟩

/-- Claim C3 (amended): when `noverlap` is not supplied the code uses
nfft // 2 when nfft ≤ 128 and exactly 128 otherwise; this agrees with the
claimed min(nfft // 2, 128) precisely on nfft ≤ 128 or nfft ≥ 256 (for
128 < nfft < 256 the code passes 128, not nfft // 2). -/
theorem default_noverlap_min_on_split {α : Type}
    (spectro : Nat → List Int → Int → Int → α) (sr : Nat) (xs : List Int)
    (nfft : Int) (h : nfft ≤ 128 ∨ 256 ≤ nfft) :
    create_plotly_spectrogram spectro (some (sr, WavData.oneD xs)) nfft none =
      Except.ok (SpecFig.mono
        ⟨spectro sr xs nfft (min (nfft / 2) 128), true⟩
        "Time (s)" "Frequency (Hz)") := by
  have hred : create_plotly_spectrogram spectro (some (sr, WavData.oneD xs))
      nfft none =
      Except.ok (SpecFig.mono
        ⟨spectro sr xs nfft (resolve_noverlap nfft none), true⟩
        "Time (s)" "Frequency (Hz)") := rfl
  rw [hred, resolve_noverlap_eq_min nfft h]

theorem default_noverlap_min_on_split_witness :
    create_plotly_spectrogram (fun _ _ _ nov => nov)
        (some (48000, WavData.oneD [0])) 64 none =
      Except.ok (SpecFig.mono ⟨min ((64 : Int) / 2) 128, true⟩
        "Time (s)" "Frequency (Hz)") :=
  default_noverlap_min_on_split (fun _ _ _ nov => nov) 48000 [0] 64
    (Or.inl (by norm_num))

/-- Claim C9: on a two-channel array the figure is two vertically stacked
heatmap panels with the same axis titles; panel i's z-matrix is the
abstract spectrogram applied to column i of the data alone (with the same
nfft and overlap for both), and only the first panel carries the color
scale. -/
theorem stereo_channels_independent {α : Type}
    (spectro : Nat → List Int → Int → Int → α) (sr : Nat)
    (rows : List (List Int)) (ncols : Nat) (nfft : Int) (nov : Option Int)
    (h : 2 ≤ ncols) :
    ∃ p0 p1 : Panel α,
      create_plotly_spectrogram spectro (some (sr, WavData.twoD rows ncols))
          nfft nov =
        Except.ok (SpecFig.stereo p0 p1
          "Time (s)" "Frequency (Hz)" "Frequency (Hz)") ∧
      p0.z = spectro sr (column 0 rows) nfft (resolve_noverlap nfft nov) ∧
      p1.z = spectro sr (column 1 rows) nfft (resolve_noverlap nfft nov) ∧
      p0.showscale = true ∧ p1.showscale = false := by
  have hred : create_plotly_spectrogram spectro
      (some (sr, WavData.twoD rows ncols)) nfft nov =
      if 2 ≤ ncols then
        Except.ok (SpecFig.stereo
          ⟨spectro sr (column 0 rows) nfft (resolve_noverlap nfft nov), true⟩
          ⟨spectro sr (column 1 rows) nfft (resolve_noverlap nfft nov), false⟩
          "Time (s)" "Frequency (Hz)" "Frequency (Hz)")
      else Except.error SpecErr.indexError := rfl
  rw [hred, if_pos h]
  exact ⟨_, _, rfl, rfl, rfl, rfl, rfl⟩

theorem stereo_channels_independent_witness :
    ∃ p0 p1 : Panel (List Int),
      create_plotly_spectrogram (fun _ xs _ _ => xs)
          (some (2, WavData.twoD [[1, 2], [3, 4]] 2)) 256 none =
        Except.ok (SpecFig.stereo p0 p1
          "Time (s)" "Frequency (Hz)" "Frequency (Hz)") ∧
      p0.showscale = true ∧ p1.showscale = false := by
  obtain ⟨p0, p1, h1, _, _, h4, h5⟩ :=
    stereo_channels_independent (fun _ xs _ _ => xs) 2 [[1, 2], [3, 4]] 2 256
      none (by norm_num)
  exact ⟨p0, p1, h1, h4, h5⟩

/-- Claim C10: a figure is returned exactly for 1-D data or 2-D data with
at least two columns; the descriptive load error occurs exactly when the
decode itself fails; a 0-D or 3-D array ends in the unbound-`fig` error
and a 2-D array with fewer than two columns ends in the channel-index
error — unhandled conditions, not the descriptive load failure. -/
theorem spectrogram_shape_outcomes {α : Type}
    (spectro : Nat → List Int → Int → Int → α)
    (wavRead : Option (Nat × WavData)) (nfft : Int) (nov : Option Int) :
    ((∃ fig, create_plotly_spectrogram spectro wavRead nfft nov =
        Except.ok fig) ↔
      ((∃ sr xs, wavRead = some (sr, WavData.oneD xs)) ∨
       (∃ sr rows n, wavRead = some (sr, WavData.twoD rows n) ∧ 2 ≤ n))) ∧
    (create_plotly_spectrogram spectro wavRead nfft nov =
        Except.error SpecErr.loadError ↔ wavRead = none) ∧
    (∀ sr x, wavRead = some (sr, WavData.zeroD x) →
      create_plotly_spectrogram spectro wavRead nfft nov =
        Except.error SpecErr.unboundLocal) ∧
    (∀ sr xs, wavRead = some (sr, WavData.threeD xs) →
      create_plotly_spectrogram spectro wavRead nfft nov =
        Except.error SpecErr.unboundLocal) ∧
    (∀ sr rows n, wavRead = some (sr, WavData.twoD rows n) → n < 2 →
      create_plotly_spectrogram spectro wavRead nfft nov =
        Except.error SpecErr.indexError) := by
  cases wavRead with
  | none => simp [create_plotly_spectrogram]
  | some pr =>
    obtain ⟨sr, data⟩ := pr
    cases data with
    | zeroD x => simp [create_plotly_spectrogram]
    | oneD xs => simp [create_plotly_spectrogram]
    | twoD rows n =>
      by_cases h : 2 ≤ n
      · simp [create_plotly_spectrogram, h]
        exact ⟨sr, rows, n, ⟨rfl, rfl, rfl⟩, h⟩
      · simp [create_plotly_spectrogram, h]
        omega
    | threeD xs => simp [create_plotly_spectrogram]

theorem spectrogram_shape_outcomes_witness :
    create_plotly_spectrogram (fun _ _ _ nov => nov)
        (some (1, WavData.zeroD 0)) 256 none =
      Except.error SpecErr.unboundLocal :=
  ((spectrogram_shape_outcomes (fun _ _ _ nov => nov)
      (some (1, WavData.zeroD 0)) 256 none).2.2.1) 1 0 rfl

/-! ## The Generate interaction (claim C2) -/

/-- Claim C2 as stated is false: with an inner mapping holding only a PSD
entry and no raw audio, the interaction emits the fatal no-WAV error and
returns immediately, so the PSD entry present for the timestamp is not
loaded or rendered (the PSD path is aborted by that failure, not left
unaffected). -/
theorem noWav_aborts_interaction_cex :
    generate_graphs [("psd", "output/loc/s1/pkl/psd/x.pickle")]
        true true true true = [UiEvent.errorNoWav] ∧
    UiEvent.showPsd ∉
      generate_graphs [("psd", "output/loc/s1/pkl/psd/x.pickle")]
        true true true true := by
  exact ⟨rfl, by decide⟩

/-- Claim C2 (amended): a missing raw-audio kind is fatal to the whole
interaction — the only emitted event is the no-WAV error, so no PSD or
broadband chart is rendered even when present.  Isolation instead holds
between the PSD and broadband adapters once the wav spectrogram step
succeeds: a PSD load failure yields only a warning while broadband still
renders, and symmetrically for a broadband load failure. -/
theorem noWav_fatal_adapter_isolation (file_info : FileEntry)
    (w s p b : Bool) :
    ((lookupKind file_info ".wav").isSome = false →
      generate_graphs file_info w s p b = [UiEvent.errorNoWav]) ∧
    ((lookupKind file_info ".wav").isSome = true → w = true → s = true →
      (lookupKind file_info "psd").isSome = true →
      (lookupKind file_info "bb").isSome = true →
      ((p = false →
          UiEvent.warnPsdLoadFailed ∈ generate_graphs file_info w s p b ∧
          (b = true →
            UiEvent.showBroadband ∈ generate_graphs file_info w s p b)) ∧
       (b = false →
          UiEvent.warnBroadbandLoadFailed ∈ generate_graphs file_info w s p b ∧
          (p = true →
            UiEvent.showPsd ∈ generate_graphs file_info w s p b)))) := by
  constructor
  · intro h
    simp [generate_graphs, h]
  · intro hw hwp hs hpsd hbb
    subst hwp
    subst hs
    constructor
    · intro hp
      subst hp
      constructor
      · simp [generate_graphs, hw, hpsd, hbb]
      · intro hb
        subst hb
        simp [generate_graphs, hw, hpsd, hbb]
    · intro hb
      subst hb
      constructor
      · simp [generate_graphs, hw, hpsd, hbb]
      · intro hp
        subst hp
        simp [generate_graphs, hw, hpsd, hbb]

theorem noWav_fatal_adapter_isolation_witness :
    UiEvent.warnPsdLoadFailed ∈
      generate_graphs [(".wav", "w"), ("psd", "p"), ("bb", "b")]
        true true false true ∧
    UiEvent.showBroadband ∈
      generate_graphs [(".wav", "w"), ("psd", "p"), ("bb", "b")]
        true true false true := by
  have h := ((noWav_fatal_adapter_isolation
      [(".wav", "w"), ("psd", "p"), ("bb", "b")] true true false true).2
    (by decide) rfl rfl (by decide) (by decide)).1 rfl
  exact ⟨h.1, h.2 rfl⟩
